import Mathlib

set_option linter.unusedVariables false
set_option linter.unnecessarySeqFocus false

namespace ClaudeSync

/-- Substring occurrence test on lists: `hasSub pat l` is true when `pat`
occurs contiguously inside `l`. This models the JavaScript
`String.prototype.includes` used throughout the source. -/
def hasSub [BEq α] (pat : List α) : List α → Bool
  | [] => pat.isEmpty
  | x :: xs => pat.isPrefixOf (x :: xs) || hasSub pat xs

/-- Model of the JavaScript substring test `s.includes(pat)`. -/
def containsSub (s pat : String) : Bool := hasSub pat.data s.data

/-- Separator inserted by `Syncer.mergeContent` between the shared (global)
and the private (project) content (src/unnamed/part_007, line 105). -/
def sepString : String := "\n\n---\n\n# Project-Specific Configuration\n\n"

/-- Trailing newline appended by `Syncer.mergeContent`. -/
def newlineString : String := "\n"

/-- The empty string, the falsy JavaScript string value. -/
def emptyStr : String := ""

/-- Shallow embedding of `Syncer.mergeContent` (src/unnamed/part_007, lines
92-108). A JavaScript string is falsy exactly when it is empty, so the
`!globalContent` and `!projectContent` guards become equality tests with the
empty string. -/
def mergeContent (globalContent projectContent : String) : String :=
  if globalContent = emptyStr ∧ projectContent = emptyStr then emptyStr
  else if globalContent = emptyStr then projectContent
  else if projectContent = emptyStr then globalContent
  else globalContent.trim ++ sepString ++ projectContent.trim ++ newlineString

/-- Shared-rules sample content for witnesses. -/
def wSharedA : String := "# A"

/-- Private-rules sample content for witnesses. -/
def wPrivB : String := "b"

/-- Path separator for forward-slash paths. -/
def slashString : String := "/"

/-- Path separator character. -/
def slashChar : Char := '/'

/-- Last path segment of a forward-slash path (with no trailing slash),
modelling `path.basename`: the characters after the last slash. -/
def basename (p : String) : String :=
  String.mk ((p.data.reverse.takeWhile (fun c => c != slashChar)).reverse)

/-- Model of `path.join(dir, file)` on forward-slash paths. -/
def joinPath (dir file : String) : String := dir ++ slashString ++ file

def configSegment : String := ".config"

def appSegment : String := "claude-sync"

def repoSegment : String := "repo"

/-- Model of `REPO_DIR = path.join(os.homedir(), ".config", "claude-sync",
"repo")` (src/lib/git.js, line 7), parameterised by the home directory. -/
def repoDir (home : String) : String :=
  joinPath (joinPath (joinPath home configSegment) appSegment) repoSegment

/-- Filesystem model: a map from absolute path strings to file contents,
`none` meaning the file does not exist. -/
def Fs : Type := String → Option String

/-- Model of `fs.writeFileSync` and `fs.copyFileSync` targets. -/
def fsWrite (fs : Fs) (p c : String) : Fs :=
  fun q => if q = p then some c else fs q

/-- Model of `fs.unlinkSync` and `git rm` removing a file. -/
def fsRemove (fs : Fs) (p : String) : Fs :=
  fun q => if q = p then none else fs q

/-- Model of `fs.existsSync` on a file path. -/
def fsExists (fs : Fs) (p : String) : Bool := (fs p).isSome

/-- Model of `fs.readFileSync` on a path known to exist. -/
def fsRead (fs : Fs) (p : String) : String := (fs p).getD emptyStr

/-- Git-level operations performed by the Repository Gateway, recorded as a
trace so that theorems can state which repository mutations happen. -/
inductive GitOp where
  | add (file : String)
  | rm (file : String)
  | commit (message : String)
  | push
  | pullAttempt
  | stashSave
  | stashPop
  | stashDrop
  deriving DecidableEq, Repr

def privateRulesName : String := "CLAUDE-PROJECT.md"

def globalRulesName : String := "CLAUDE-GLOBAL.md"

def claudeMdName : String := "CLAUDE.md"

def privateGuardMsg : String :=
  "CLAUDE-PROJECT.md should never be pushed to GitHub. Only CLAUDE-GLOBAL.md can be synced."

def noChangesMsg : String := "No changes to commit"

def pushedOkMsg : String := "Successfully pushed to GitHub"

/-- Result object of `GitManager.syncFile`. -/
structure PushReport where
  pushed : Bool
  message : String
  deriving DecidableEq, Repr

/-- Return value, final filesystem, and git-operation trace of a Repository
Gateway call. -/
structure SyncFileOut where
  res : Except String PushReport
  fs : Fs
  ops : List GitOp

/-- Shallow embedding of `GitManager.syncFile` (src/lib/git.js, lines
181-222) over the combined model filesystem (workspace files plus the
repository clone under `repoDir home`). The `git status` emptiness check of
line 210 is modelled as detecting whether the staged copy or removal changed
the clone content. The surrounding `lock.withLock` performs no repository
mutation and is omitted from the trace. -/
def syncFileModel (home filePath commitMessage : String)
    (targetFileName : Option String) (isDelete : Bool) (fs : Fs) : SyncFileOut :=
  let fileName := targetFileName.getD (basename filePath)
  let targetPath := joinPath (repoDir home) fileName
  if !isDelete && basename filePath == privateRulesName then
    ⟨.error privateGuardMsg, fs, []⟩
  else if !isDelete then
    let content := fsRead fs filePath
    let fs2 := fsWrite fs targetPath content
    if fs targetPath == some content then
      ⟨.ok ⟨false, noChangesMsg⟩, fs2, [.add fileName]⟩
    else
      ⟨.ok ⟨true, pushedOkMsg⟩, fs2, [.add fileName, .commit commitMessage, .push]⟩
  else
    let fs2 := fsRemove fs targetPath
    if fs targetPath == none then
      ⟨.ok ⟨false, noChangesMsg⟩, fs2, [.rm fileName]⟩
    else
      ⟨.ok ⟨true, pushedOkMsg⟩, fs2, [.rm fileName, .commit commitMessage, .push]⟩

def wHome : String := "/home/user"

def wWorkspace : String := "/home/user/projects/app"

def wCommitMsg : String := "Update CLAUDE.md"

/-- Empty model filesystem. -/
def fsEmpty : Fs := fun _ => none

def conflictPat : String := "CONFLICT"

def couldNotRestorePat : String := "could not restore"

def stashPopCmd : String := "git stash pop"

def conflictMsgPre : String :=
  "Stash pop failed due to merge conflicts. Your local changes are still saved in the stash.\nTo resolve manually:\n  cd "

def conflictMsgMid : String :=
  "\n  git stash pop    (re-attempt, will show conflicts)\n  # resolve conflicts, then: git add . && git stash drop\nOriginal error: "

def plainMsgPre : String :=
  "Failed to restore stashed changes after pull. Your changes are still in the stash.\nTo recover: cd "

def plainMsgMid : String := " && git stash pop\nOriginal error: "

/-- Error raised when the stash pop after a pull fails with a merge conflict
(src/lib/git.js, lines 249-256). -/
def stashConflictMsg (home m : String) : String :=
  conflictMsgPre ++ repoDir home ++ conflictMsgMid ++ m

/-- Error raised when the stash pop after a pull fails for another reason
(src/lib/git.js, lines 258-262). -/
def stashPlainMsg (home m : String) : String :=
  plainMsgPre ++ repoDir home ++ plainMsgMid ++ m

/-- Return value and git-operation trace of `GitManager.pull`. -/
structure PullOut where
  res : Except String Unit
  ops : List GitOp

/-- Shallow embedding of `GitManager.pull` (src/lib/git.js, lines 224-267).
`dirty` is the observation `status.files.length > 0`, `pullResult` the
outcome of the retry-wrapped `git pull`, and `popResult` the outcome of
`git stash pop`. The JavaScript `finally` block runs the pop on every pull
outcome, and an error thrown there supersedes the pull error. -/
def pullModel (home : String) (dirty : Bool)
    (pullResult popResult : Except String Unit) : PullOut :=
  if dirty then
    let ops := [GitOp.stashSave, GitOp.pullAttempt, GitOp.stashPop]
    match popResult with
    | .ok _ => ⟨pullResult, ops⟩
    | .error m =>
      if containsSub m conflictPat || containsSub m couldNotRestorePat then
        ⟨.error (stashConflictMsg home m), ops⟩
      else
        ⟨.error (stashPlainMsg home m), ops⟩
  else ⟨pullResult, [GitOp.pullAttempt]⟩

/-- Transient-failure patterns of `GitManager._retryWithBackoff`
(src/lib/git.js, lines 43-57). -/
def transientPatterns : List String :=
  [r"Could not resolve host", r"Connection refused", r"Connection reset",
   r"Connection timed out", r"unable to access", r"SSL", r"ETIMEDOUT",
   r"ECONNRESET", r"ECONNREFUSED", r"ENOTFOUND", r"fetch first",
   r"failed to push", r"Could not read from remote"]

/-- An error message is transient when it matches one of the fixed patterns
(src/lib/git.js, lines 43-57). -/
def isTransient (msg : String) : Bool :=
  transientPatterns.any (fun pat => containsSub msg pat)

/-- Outcome of a retry-wrapped operation: final result, the sleep delays
performed between attempts, and the number of attempts made. -/
structure RetryTrace (α : Type) where
  result : Except String α
  delays : List Nat
  attempts : Nat

/-- Loop of `GitManager._retryWithBackoff` (src/lib/git.js, lines 29-70).
`fn i` is the outcome of the wrapped operation on its zero-based attempt
index `i`; the second argument counts the retries still allowed. On the last
allowed attempt a failure breaks out without testing transience or sleeping,
matching the `attempt === maxRetries` break, and the last error is thrown. -/
def retryGo (fn : Nat → Except String α) (baseDelayMs : Nat) :
    Nat → Nat → RetryTrace α
  | attempt, 0 =>
    match fn attempt with
    | .ok a => ⟨.ok a, [], 1⟩
    | .error e => ⟨.error e, [], 1⟩
  | attempt, remaining + 1 =>
    match fn attempt with
    | .ok a => ⟨.ok a, [], 1⟩
    | .error e =>
      if isTransient e then
        let t := retryGo fn baseDelayMs (attempt + 1) remaining
        ⟨t.result, baseDelayMs * 2 ^ attempt :: t.delays, t.attempts + 1⟩
      else ⟨.error e, [], 1⟩

/-- Shallow embedding of `GitManager._retryWithBackoff` with its delay
formula `baseDelayMs * 2 ^ attempt` (src/lib/git.js, line 63). -/
def retryWithBackoff (fn : Nat → Except String α) (maxRetries baseDelayMs : Nat) :
    RetryTrace α :=
  retryGo fn baseDelayMs 0 maxRetries

def wTransientErr : String := "ECONNRESET: connection reset by peer"

def wFatalErr : String := "fatal: repository not found"

/-- Attempt oracle for the C6 witness: one transient failure, then success. -/
def wFn : Nat → Except String Nat :=
  fun i => if i = 0 then Except.error wTransientErr else Except.ok 7

/-- Attempt oracle for the C6 witness: a non-transient failure. -/
def wFnFatal : Nat → Except String Nat := fun _ => Except.error wFatalErr

def LOCK_TIMEOUT_MS : Int := 60000

def LOCK_RETRY_INTERVAL_MS : Int := 200

def LOCK_MAX_RETRIES : Nat := 150

/-- Contents of the lock marker file written by `GitLock._tryAcquire`
(src/lib/lock.js, lines 59-63). -/
structure LockData where
  pid : Nat
  timestamp : Int
  hostname : String
  deriving DecidableEq, Repr

/-- Shallow embedding of `GitLock._isStale` (src/lib/lock.js, lines 75-97).
`read` is the result of reading and parsing the lock file, `none` when it
cannot be read or parsed (the catch branch of the source returns true), and
`alive pid` models `process.kill(pid, 0)` succeeding. -/
def isStale (read : Option LockData) (now : Int) (host : String)
    (alive : Nat → Bool) : Bool :=
  match read with
  | none => true
  | some d =>
    if now - d.timestamp > LOCK_TIMEOUT_MS then true
    else if d.hostname == host then !(alive d.pid) else false

def lockTimeoutMsgPre : String :=
  "Could not acquire git lock after 30 seconds. Another claude-sync process may be stuck. Delete "

def lockTimeoutMsgSuf : String := " manually if this persists."

/-- Error thrown when `GitLock.acquire` exhausts its retries (src/lib/lock.js,
lines 27-31). -/
def lockTimeoutMsg (lockFile : String) : String :=
  lockTimeoutMsgPre ++ lockFile ++ lockTimeoutMsgSuf

/-- Shallow embedding of the `GitLock.acquire` retry loop (src/lib/lock.js,
lines 12-32) for a single process with no concurrent interference: the lock
file changes only through this process deleting a stale marker, and the
clock advances by the retry interval during each sleep. `file` is the lock
file state: `none` when absent, in which case the atomic create-if-absent
write succeeds, and `some r` when present with read result `r`. A stale
marker is released (deleted) and retried immediately without sleeping. -/
def acquireGo (host : String) (alive : Nat → Bool) (lockFile : String) :
    Nat → Option (Option LockData) → Int → Except String Bool
  | 0, _, _ => .error (lockTimeoutMsg lockFile)
  | fuel + 1, file, now =>
    match file with
    | none => .ok true
    | some marker =>
      if isStale marker now host alive then
        acquireGo host alive lockFile fuel none now
      else
        acquireGo host alive lockFile fuel (some marker) (now + LOCK_RETRY_INTERVAL_MS)

/-- `GitLock.acquire` with the fixed retry budget of the source. -/
def acquireModel (host : String) (alive : Nat → Bool) (lockFile : String)
    (file : Option (Option LockData)) (now : Int) : Except String Bool :=
  acquireGo host alive lockFile LOCK_MAX_RETRIES file now

def wHost : String := "machine-a"

def wLockFile : String := "/home/user/.config/claude-sync/git.lock"

/-- Liveness oracle for the C7 witness: every process id is alive. -/
def wAlive : Nat → Bool := fun _ => true

/-- Lock marker for the C7 witness. -/
def wMarker : LockData := ⟨4242, 0, wHost⟩

/-- Category assigned to a changed file by the watcher. -/
inductive FileCategory where
  | globalSkill
  | localSkill
  | globalAgent
  | localAgent
  | sharedRule
  | privateRule
  | unrelated
  deriving DecidableEq, Repr

/-- Model of `pathStartsWith` (src/lib/auth.js companion module, lines
128-133) on a non-Windows platform: `path.resolve` is the identity on
already-resolved absolute paths, leaving the plain string prefix test of
`String.prototype.startsWith`. -/
def pathStartsWith (filePath prefixPath : String) : Bool :=
  prefixPath.data.isPrefixOf filePath.data

/-- The three well-known per-workspace filenames from the `syncRules`
configuration: shared-rules file, private-rules file, merged-output file. -/
structure SyncRules where
  globalFile : String
  projectFile : String
  targetFile : String
  deriving DecidableEq, Repr

/-- Default sync rules of the configuration template. -/
def defaultSyncRules : SyncRules :=
  ⟨globalRulesName, privateRulesName, claudeMdName⟩

def skillManifestLower : String := "skill.md"

def mdExt : String := ".md"

/-- Model of `String.prototype.toLowerCase` on filenames. -/
def toLowerStr (s : String) : String := String.mk (s.data.map Char.toLower)

/-- Model of `String.prototype.endsWith`. -/
def endsWithStr (s suf : String) : Bool := suf.data.isSuffixOf s.data

/-- The fixed `path.join(".claude", "agents")` segment tested with
`filePath.includes` (src/unnamed/part_004, line 268). -/
def agentsSegment : String := ".claude/agents"

/-- Shallow embedding of the classification chain of
`Watcher._attachEventHandlers` (src/unnamed/part_004, lines 251-326): the
checks are applied in precedence order, and the global-versus-local decision
is the `pathStartsWith` prefix comparison against the fixed global root. -/
def classifyChange (rules : SyncRules)
    (globalSkillsPath globalAgentsPath filePath : String) : FileCategory :=
  let fileName := basename filePath
  if toLowerStr fileName == skillManifestLower then
    if pathStartsWith filePath globalSkillsPath then .globalSkill else .localSkill
  else if endsWithStr fileName mdExt && containsSub filePath agentsSegment then
    if pathStartsWith filePath globalAgentsPath then .globalAgent else .localAgent
  else if fileName == rules.globalFile then .sharedRule
  else if fileName == rules.projectFile then .privateRule
  else .unrelated

def wGsp : String := "/home/user/.claude/skills"

def wGap : String := "/home/user/.claude/agents"

def wSkillPath : String := "/home/user/.claude/skills/review/SKILL.md"

def wAgentPath : String := "/w1/.claude/agents/helper.md"

def wProjectPath : String := "/w1/CLAUDE-PROJECT.md"

def wOtherPath : String := "/w1/notes.txt"

/-- A registered workspace (src/lib/config.js, lines 104-108): absolute path
and display name; the registration timestamp is irrelevant here. -/
structure Workspace where
  path : String
  name : String
  deriving DecidableEq, Repr

def skillsSeg : String := "skills"

def agentsSeg : String := "agents"

def neitherPre : String := "Neither "

def norMid : String := " nor "

def foundSuf : String := " found in workspace"

def syncedMsgPre : String := "Successfully synced "

def skillNotFoundPre : String := "Skill file not found: "

def agentNotFoundPre : String := "Agent file not found: "

def globalNotFoundPre : String := "CLAUDE-GLOBAL.md not found: "

def projectSkillMsg : String := "Skill is project-specific, not synced to GitHub"

def projectAgentMsg : String := "Agent is project-specific, not synced to GitHub"

def updateSkillPre : String := "Update skill: "

def updateAgentPre : String := "Update agent: "

def updateGlobalPre : String := "Update global rules - "

def dashSep : String := " - "

def noWorkspacesMsg : String :=
  "No workspaces registered. Use \"claude-sync add <path>\" to add workspaces."

/-- Directory part of a forward-slash path, modelling `path.dirname`. -/
def dirname (p : String) : String :=
  String.mk (((p.data.reverse.dropWhile (fun c => c != slashChar)).drop 1).reverse)

/-- Model of `path.relative(root, p)` when `root` is a strict path prefix of
`p`: the characters of `p` after `root` and its separator. -/
def relPath (root p : String) : String :=
  String.mk (p.data.drop (root.data.length + 1))

/-- Suffix removal as in `path.basename(p, ".md")`. -/
def stripSuffix (s suf : String) : String :=
  if endsWithStr s suf then String.mk (s.data.take (s.data.length - suf.data.length))
  else s

/-- Result object, final filesystem, and read trace of `Syncer.syncWorkspace`
(src/unnamed/part_007, lines 55-90). -/
structure SyncWorkspaceOut where
  success : Bool
  message : String
  fs : Fs
  reads : List String

/-- Shallow embedding of `Syncer.syncWorkspace` (src/unnamed/part_007, lines
55-90): read the shared-rules and private-rules files that exist in the
workspace, merge them, and write the merged-output file; no repository
interaction. `reads` records which files were read. -/
def syncWorkspaceModel (rules : SyncRules) (workspacePath : String) (fs : Fs) :
    SyncWorkspaceOut :=
  let globalFile := joinPath workspacePath rules.globalFile
  let projectFile := joinPath workspacePath rules.projectFile
  let targetFile := joinPath workspacePath rules.targetFile
  if !(fsExists fs globalFile) && !(fsExists fs projectFile) then
    ⟨false, neitherPre ++ rules.globalFile ++ norMid ++ rules.projectFile ++ foundSuf,
      fs, []⟩
  else
    let globalContent := if fsExists fs globalFile then fsRead fs globalFile else emptyStr
    let projectContent := if fsExists fs projectFile then fsRead fs projectFile else emptyStr
    let readsG : List String := if fsExists fs globalFile then [globalFile] else []
    let readsP : List String := if fsExists fs projectFile then [projectFile] else []
    ⟨true, syncedMsgPre ++ rules.targetFile,
      fsWrite fs targetFile (mergeContent globalContent projectContent),
      readsG ++ readsP⟩

/-- Shallow embedding of `Syncer.syncSkillToGitHub` (src/unnamed/part_007,
lines 219-250). The syncer tests the global skills root with a plain
`startsWith`, which `pathStartsWith` models. -/
def syncSkillToGitHubModel (home today gsp skillFilePath : String) (fs : Fs) :
    SyncFileOut :=
  if !(fsExists fs skillFilePath) then
    ⟨.error (skillNotFoundPre ++ skillFilePath), fs, []⟩
  else if !(pathStartsWith skillFilePath gsp) then
    ⟨.ok ⟨false, projectSkillMsg⟩, fs, []⟩
  else
    let target := joinPath skillsSeg (relPath gsp skillFilePath)
    let skillName := basename (dirname skillFilePath)
    syncFileModel home skillFilePath (updateSkillPre ++ skillName ++ dashSep ++ today)
      (some target) false fs

/-- Shallow embedding of `Syncer.syncAgentToGitHub` (src/unnamed/part_007,
lines 371-402). -/
def syncAgentToGitHubModel (home today gap agentFilePath : String) (fs : Fs) :
    SyncFileOut :=
  if !(fsExists fs agentFilePath) then
    ⟨.error (agentNotFoundPre ++ agentFilePath), fs, []⟩
  else if !(pathStartsWith agentFilePath gap) then
    ⟨.ok ⟨false, projectAgentMsg⟩, fs, []⟩
  else
    let target := joinPath agentsSeg (basename agentFilePath)
    let agentName := stripSuffix (basename agentFilePath) mdExt
    syncFileModel home agentFilePath (updateAgentPre ++ agentName ++ dashSep ++ today)
      (some target) false fs

/-- Shallow embedding of `Syncer.syncGlobalToGitHub` (src/unnamed/part_007,
lines 110-129), pushing the shared-rules file into the clone under its
canonical name CLAUDE.md. The rethrow that prefixes failure messages does not
change the filesystem or the operation trace and is not modelled. -/
def syncGlobalToGitHubModel (home today globalFilePath : String) (fs : Fs) :
    SyncFileOut :=
  if !(fsExists fs globalFilePath) then
    ⟨.error (globalNotFoundPre ++ globalFilePath), fs, []⟩
  else
    syncFileModel home globalFilePath (updateGlobalPre ++ today)
      (some claudeMdName) false fs

/-- Shallow embedding of `Syncer.propagateGlobalToWorkspaces`
(src/unnamed/part_007, lines 177-217): copy the canonical CLAUDE.md of the
clone into the shared-rules file of every workspace other than the excluded
one and re-run the merge for each. When CLAUDE.md is absent from the clone
the source throws before touching any workspace; the caller catches and
logs, so the filesystem is returned unchanged. -/
def propagateGlobalToWorkspacesModel (rules : SyncRules) (home : String)
    (workspaces : List Workspace) (excludePath : Option String) (fs : Fs) : Fs :=
  let githubClaudeFile := joinPath (repoDir home) claudeMdName
  if !(fsExists fs githubClaudeFile) then fs
  else
    workspaces.foldl (fun acc w =>
      if excludePath == some w.path then acc
      else
        let acc2 := fsWrite acc (joinPath w.path rules.globalFile)
          (fsRead acc githubClaudeFile)
        (syncWorkspaceModel rules w.path acc2).fs) fs

/-- Effects of one watcher change event: final filesystem, files read, and
git operations performed. -/
structure HandleOut where
  fs : Fs
  reads : List String
  ops : List GitOp

/-- Shallow embedding of the `change` handler of
`Watcher._attachEventHandlers` (src/unnamed/part_004, lines 228-337),
routing a changed file by the classification chain. Errors thrown by a
branch are caught by the handler (line 327) after the recorded effects. -/
def handleChangeModel (rules : SyncRules) (home today : String)
    (workspaces : List Workspace) (gsp gap workspacePath filePath : String)
    (fs : Fs) : HandleOut :=
  let fileName := basename filePath
  if toLowerStr fileName == skillManifestLower then
    if pathStartsWith filePath gsp then
      let r := syncSkillToGitHubModel home today gsp filePath fs
      ⟨r.fs, [filePath], r.ops⟩
    else ⟨fs, [], []⟩
  else if endsWithStr fileName mdExt && containsSub filePath agentsSegment then
    if pathStartsWith filePath gap then
      let r := syncAgentToGitHubModel home today gap filePath fs
      ⟨r.fs, [filePath], r.ops⟩
    else ⟨fs, [], []⟩
  else if fileName == rules.globalFile then
    let sw := syncWorkspaceModel rules workspacePath fs
    if sw.success then
      let g := syncGlobalToGitHubModel home today
        (joinPath workspacePath rules.globalFile) sw.fs
      match g.res with
      | .ok rep =>
        if rep.pushed then
          let fs2 := propagateGlobalToWorkspacesModel rules home workspaces
            (some workspacePath) g.fs
          ⟨fs2, sw.reads ++ [joinPath workspacePath rules.globalFile], g.ops⟩
        else ⟨g.fs, sw.reads, g.ops⟩
      | .error _ => ⟨g.fs, sw.reads, g.ops⟩
    else ⟨sw.fs, sw.reads, []⟩
  else if fileName == rules.projectFile then
    let sw := syncWorkspaceModel rules workspacePath fs
    ⟨sw.fs, sw.reads, []⟩
  else ⟨fs, [], []⟩

def wToday : String := "2025-01-01"

def wWs1 : String := "/w1"

def wWs2 : String := "/w2"

/-- Concrete filesystem for the C9 witness: only W1 has a private-rules
file. -/
def wLocalContent : String := "local"

def wFsC9 : Fs := fun p =>
  if p = joinPath wWs1 privateRulesName then some wLocalContent else none

/-- Return value, final filesystem, and git-operation trace of
`Syncer.syncAll`. -/
structure SyncAllOut where
  res : Except String Unit
  fs : Fs
  ops : List GitOp

/-- Shallow embedding of `Syncer.syncAll` (src/unnamed/part_007, lines 7-53):
regenerate the merged output of every workspace in order, then push the
FIRST workspace shared-rules file to the clone as CLAUDE.md when that file
exists, skipping the push entirely otherwise. Per-workspace errors are
caught into the result list and do not stop the loop. -/
def syncAllModel (rules : SyncRules) (home today : String)
    (workspaces : List Workspace) (fs : Fs) : SyncAllOut :=
  match workspaces with
  | [] => ⟨.error noWorkspacesMsg, fs, []⟩
  | w0 :: rest =>
    let fs1 := (w0 :: rest).foldl
      (fun acc w => (syncWorkspaceModel rules w.path acc).fs) fs
    let globalFile := joinPath w0.path rules.globalFile
    if fsExists fs1 globalFile then
      let g := syncGlobalToGitHubModel home today globalFile fs1
      ⟨.ok (), g.fs, g.ops⟩
    else ⟨.ok (), fs1, []⟩

/-- Concrete filesystem for the C10 witness: W1 has shared-rules content
while W2 has different shared-rules content that must not be pushed. -/
def wSharedR : String := "# R"

def wSharedOther : String := "# OTHER"

def wFsC10 : Fs := fun p =>
  if p = joinPath wWs1 globalRulesName then some wSharedR
  else if p = joinPath wWs2 globalRulesName then some wSharedOther
  else none

/-- Empty filesystem for the skipped-push half of the C10 witness. -/
def wFsC10b : Fs := fun _ => none

def claudeMdMissingMsg : String := "CLAUDE.md not found in GitHub repository"

/-- Repository-clone layout observations for the daemon start-up bulk pull. -/
structure RepoLayout where
  hasClaudeMd : Bool
  hasSkillsDir : Bool
  hasAgentsDir : Bool
  deriving DecidableEq, Repr

/-- Git operations of `Syncer.propagateFromGitHub` (src/unnamed/part_007,
lines 136-175): the function takes no options parameter, so the `skipPull`
option its callers pass is ignored; it throws when CLAUDE.md is absent from
the clone, and otherwise performs its own `git.pull()` before fanning out to
the workspaces; the fan-out itself performs no git operation. -/
def propagateFromGitHubPulls (r : RepoLayout) : Except String (List GitOp) :=
  if !r.hasClaudeMd then .error claudeMdMissingMsg
  else .ok [GitOp.pullAttempt]

/-- Git operations of `Syncer.propagateSkillsFromGitHub`
(src/unnamed/part_007, lines 252-297): no options parameter, so `skipPull`
is ignored; returns early without pulling when the clone has no skills
directory, and otherwise performs its own `git.pull()` before the local
directory copy, which performs no git operation. -/
def propagateSkillsFromGitHubPulls (r : RepoLayout) : List GitOp :=
  if !r.hasSkillsDir then [] else [GitOp.pullAttempt]

/-- Git operations of `Syncer.propagateAgentsFromGitHub`
(src/unnamed/part_007, lines 404-437), analogous to the skills case. -/
def propagateAgentsFromGitHubPulls (r : RepoLayout) : List GitOp :=
  if !r.hasAgentsDir then [] else [GitOp.pullAttempt]

/-- Git operations of the `startDaemon` start-up sequence (src/lib/daemon.js,
lines 9-31): one upfront `git.pull()`, then the three propagate calls inside
a single try block; a throw from the first propagate call skips the
remaining two and is caught and logged. -/
def startDaemonPulls (r : RepoLayout) : List GitOp :=
  GitOp.pullAttempt ::
    (match propagateFromGitHubPulls r with
     | .error _ => []
     | .ok ops => ops ++ propagateSkillsFromGitHubPulls r
         ++ propagateAgentsFromGitHubPulls r)

/-- Outcome of one single-item sync inside a bulk loop: the item was pushed,
or it reported not-pushed with a message and is recorded as skipped, or it
threw with a message and is recorded as failed. -/
inductive SingleSync where
  | pushed
  | skippedMsg (msg : String)
  | failedMsg (msg : String)
  deriving DecidableEq, Repr

/-- One entry of the per-item `details` array of a bulk sync. -/
structure ItemDetail where
  name : String
  status : String
  message : String
  deriving DecidableEq, Repr

/-- Result record of `Syncer.syncAllGlobalSkills` and
`Syncer.syncAllGlobalAgents`. -/
structure BulkResult where
  success : Bool
  synced : Nat
  failed : Nat
  details : List ItemDetail
  deriving DecidableEq, Repr

def syncedStatus : String := "synced"

def skippedStatus : String := "skipped"

def failedStatus : String := "failed"

def syncedDetailMsg : String := "Successfully synced to GitHub"

def noSkillFileMsg : String := "No skill file found (SKILL.md or skill.md)"

/-- Accumulation step shared by `Syncer.syncAllGlobalAgents`
(src/unnamed/part_007, lines 462-492) and the manifest-bearing case of
`Syncer.syncAllGlobalSkills` (lines 338-365): a pushed item increments
synced, a not-pushed item is recorded as skipped, a thrown error increments
failed and clears the overall success flag; every case appends one detail. -/
def bulkStep (acc : BulkResult) (name : String) (s : SingleSync) : BulkResult :=
  match s with
  | .pushed =>
    { acc with
        synced := acc.synced + 1
        details := acc.details ++ [⟨name, syncedStatus, syncedDetailMsg⟩] }
  | .skippedMsg m =>
    { acc with details := acc.details ++ [⟨name, skippedStatus, m⟩] }
  | .failedMsg m =>
    { acc with
        failed := acc.failed + 1
        success := false
        details := acc.details ++ [⟨name, failedStatus, m⟩] }

def initialBulk : BulkResult := ⟨true, 0, 0, []⟩

/-- Shallow embedding of the loop of `Syncer.syncAllGlobalAgents`
(src/unnamed/part_007, lines 439-495) over the per-item outcomes of
`syncAgentToGitHub` for the markdown files of the global agents directory. -/
def syncAllGlobalAgentsModel (items : List (String × SingleSync)) : BulkResult :=
  items.foldl (fun acc it => bulkStep acc it.1 it.2) initialBulk

/-- One skill directory of the global skills root: either it holds no
case-insensitive skill manifest, or it holds one whose single-item sync has
the given outcome. -/
inductive SkillItem where
  | noManifest (dir : String)
  | manifest (dir : String) (sync : SingleSync)
  deriving DecidableEq, Repr

/-- Step of `Syncer.syncAllGlobalSkills` (src/unnamed/part_007, lines
323-366): a directory without a manifest is recorded as skipped with the
fixed message and sync is not attempted. -/
def skillStep (acc : BulkResult) : SkillItem → BulkResult
  | .noManifest dir =>
    { acc with details := acc.details ++ [⟨dir, skippedStatus, noSkillFileMsg⟩] }
  | .manifest dir s => bulkStep acc dir s

/-- Shallow embedding of the loop of `Syncer.syncAllGlobalSkills`
(src/unnamed/part_007, lines 299-369). -/
def syncAllGlobalSkillsModel (items : List SkillItem) : BulkResult :=
  items.foldl skillStep initialBulk

def isPushed : SingleSync → Bool
  | .pushed => true
  | _ => false

def isFailedSync : SingleSync → Bool
  | .failedMsg _ => true
  | _ => false

def isSkippedSync : SingleSync → Bool
  | .skippedMsg _ => true
  | _ => false

def countPushedA (items : List (String × SingleSync)) : Nat :=
  items.countP (fun it => isPushed it.2)

def countFailedA (items : List (String × SingleSync)) : Nat :=
  items.countP (fun it => isFailedSync it.2)

def countSkippedA (items : List (String × SingleSync)) : Nat :=
  items.countP (fun it => isSkippedSync it.2)

def skillPushed : SkillItem → Bool
  | .manifest _ s => isPushed s
  | .noManifest _ => false

def skillFailed : SkillItem → Bool
  | .manifest _ s => isFailedSync s
  | .noManifest _ => false

def skillSkipped : SkillItem → Bool
  | .manifest _ s => isSkippedSync s
  | .noManifest _ => true

def countPushedS (items : List SkillItem) : Nat := items.countP skillPushed

def countFailedS (items : List SkillItem) : Nat := items.countP skillFailed

def countSkippedS (items : List SkillItem) : Nat := items.countP skillSkipped

def wAgentName : String := "helper"

def wNameB : String := "beta"

def wNameC : String := "gamma"

def wSkillDir : String := "review"

/-- C2: the merge function is pure and total over pairs of strings:
merge of two empty strings is empty; if exactly one argument is non-empty it
is returned unchanged; and for non-empty s and p the result is exactly
trim s, then the fixed separator, then trim p, then a newline, so the result
contains trim s before trim p with the fixed separator between them exactly
once in that decomposition. -/
theorem mergeContent_spec :
    mergeContent emptyStr emptyStr = emptyStr ∧
    (∀ s : String, s ≠ emptyStr → mergeContent s emptyStr = s) ∧
    (∀ p : String, p ≠ emptyStr → mergeContent emptyStr p = p) ∧
    (∀ s p : String, s ≠ emptyStr → p ≠ emptyStr →
      mergeContent s p = s.trim ++ sepString ++ p.trim ++ newlineString) := by
  refine ⟨by simp [mergeContent], ?_, ?_, ?_⟩
  · intro s hs
    simp [mergeContent, hs]
  · intro p hp
    simp [mergeContent, hp]
  · intro s p hs hp
    simp [mergeContent, hs, hp]

/-- Witness for C2 at concrete strings. -/
theorem mergeContent_spec_witness :
    mergeContent wSharedA emptyStr = wSharedA ∧
    mergeContent emptyStr wPrivB = wPrivB ∧
    mergeContent wSharedA wPrivB =
      wSharedA.trim ++ sepString ++ wPrivB.trim ++ newlineString := by
  refine ⟨?_, ?_, ?_⟩
  · exact mergeContent_spec.2.1 wSharedA (by decide)
  · exact mergeContent_spec.2.2.1 wPrivB (by decide)
  · exact mergeContent_spec.2.2.2 wSharedA wPrivB (by decide) (by decide)

/-- C1: every syncFile call whose source file has basename CLAUDE-PROJECT.md
and which is not a delete fails with the invariant-violation error before any
copy into the clone, staging, commit, or push, regardless of the content on
disk and of the target filename supplied. -/
theorem syncFile_private_rules_guard (home filePath commitMessage : String)
    (targetFileName : Option String) (fs : Fs)
    (h : basename filePath = privateRulesName) :
    (syncFileModel home filePath commitMessage targetFileName false fs).res
        = .error privateGuardMsg ∧
    (syncFileModel home filePath commitMessage targetFileName false fs).fs = fs ∧
    (syncFileModel home filePath commitMessage targetFileName false fs).ops = [] := by
  simp [syncFileModel, h]

/-- Witness for C1: a concrete non-delete syncFile call on a path whose
basename is CLAUDE-PROJECT.md errors out with an empty operation trace. -/
theorem syncFile_private_rules_guard_witness :
    (syncFileModel wHome (joinPath wWorkspace privateRulesName) wCommitMsg
        none false fsEmpty).res = .error privateGuardMsg ∧
    (syncFileModel wHome (joinPath wWorkspace privateRulesName) wCommitMsg
        none false fsEmpty).ops = [] := by
  have h := syncFile_private_rules_guard wHome (joinPath wWorkspace privateRulesName)
    wCommitMsg none fsEmpty (by decide)
  exact ⟨h.1, h.2.2⟩

theorem isPrefixOf_true_iff [BEq α] [LawfulBEq α] {l₁ l₂ : List α} :
    l₁.isPrefixOf l₂ = true ↔ l₁ <+: l₂ :=
  List.isPrefixOf_iff_prefix

theorem hasSub_nil [BEq α] (l : List α) : hasSub ([] : List α) l = true := by
  cases l <;> simp [hasSub, List.isPrefixOf]

theorem hasSub_append_right [BEq α] (pat l₁ l₂ : List α)
    (h : hasSub pat l₂ = true) : hasSub pat (l₁ ++ l₂) = true := by
  induction l₁ with
  | nil => simpa using h
  | cons x xs ih =>
    simp only [List.cons_append, hasSub, Bool.or_eq_true]
    exact Or.inr ih

theorem hasSub_append_left [BEq α] [LawfulBEq α] (pat l₁ l₂ : List α)
    (h : hasSub pat l₁ = true) : hasSub pat (l₁ ++ l₂) = true := by
  induction l₁ with
  | nil =>
    have : pat = [] := by
      simpa [hasSub, List.isEmpty_iff] using h
    subst this
    exact hasSub_nil l₂
  | cons x xs ih =>
    simp only [hasSub, Bool.or_eq_true] at h
    rcases h with h | h
    · have hpre : pat <+: (x :: xs) := by
        exact isPrefixOf_true_iff.mp h
      have hpre2 : pat <+: ((x :: xs) ++ l₂) :=
        hpre.trans (List.prefix_append (x :: xs) l₂)
      simp only [List.cons_append, hasSub, Bool.or_eq_true]
      exact Or.inl (isPrefixOf_true_iff.mpr (by simpa using hpre2))
    · simp only [List.cons_append, hasSub, Bool.or_eq_true]
      exact Or.inr (ih h)

theorem containsSub_append_right (a b pat : String)
    (h : containsSub b pat = true) : containsSub (a ++ b) pat = true := by
  unfold containsSub at *
  rw [String.data_append]
  exact hasSub_append_right pat.data a.data b.data h

theorem containsSub_append_left (a b pat : String)
    (h : containsSub a pat = true) : containsSub (a ++ b) pat = true := by
  unfold containsSub at *
  rw [String.data_append]
  exact hasSub_append_left pat.data a.data b.data h

/-- C5: on a dirty working copy, pull stashes before pulling and attempts a
stash pop after the pull on every pull outcome; a failed pop surfaces an
error that contains the manual-recovery command and the stash is never
dropped; on a clean working copy no stash operation occurs. -/
theorem pull_stash_protocol (home : String) :
    (∀ pr pp : Except String Unit, (pullModel home true pr pp).ops
        = [GitOp.stashSave, GitOp.pullAttempt, GitOp.stashPop]) ∧
    (∀ (pr : Except String Unit) (m : String), ∃ err,
        (pullModel home true pr (.error m)).res = .error err ∧
        containsSub err stashPopCmd = true) ∧
    (∀ (dirty : Bool) (pr pp : Except String Unit),
        GitOp.stashDrop ∉ (pullModel home dirty pr pp).ops) ∧
    (∀ pr pp : Except String Unit,
        (pullModel home false pr pp).ops = [GitOp.pullAttempt]) := by
  refine ⟨?_, ?_, ?_, ?_⟩
  · intro pr pp
    cases pp <;> simp [pullModel] <;> split <;> rfl
  · intro pr m
    by_cases hc : (containsSub m conflictPat || containsSub m couldNotRestorePat) = true
    · refine ⟨stashConflictMsg home m, ?_, ?_⟩
      · simp [pullModel, hc]
      · unfold stashConflictMsg
        exact containsSub_append_left _ m _
          (containsSub_append_right _ conflictMsgMid _ (by decide))
    · refine ⟨stashPlainMsg home m, ?_, ?_⟩
      · simp [pullModel, hc]
      · unfold stashPlainMsg
        exact containsSub_append_left _ m _
          (containsSub_append_right _ plainMsgMid _ (by decide))
  · intro dirty pr pp
    cases dirty <;> cases pp <;> simp [pullModel] <;> split <;> simp
  · intro pr pp
    simp [pullModel]

/-- Witness for C5 at concrete arguments: a dirty pull with a conflicting
stash pop produces the three-step trace and a recovery-bearing error. -/
theorem pull_stash_protocol_witness :
    (pullModel wHome true (Except.ok ()) (Except.error conflictPat)).ops
        = [GitOp.stashSave, GitOp.pullAttempt, GitOp.stashPop] ∧
    (∃ err, (pullModel wHome true (Except.ok ()) (Except.error conflictPat)).res
        = Except.error err ∧ containsSub err stashPopCmd = true) ∧
    (pullModel wHome false (Except.ok ()) (Except.ok ())).ops = [GitOp.pullAttempt] := by
  have h := pull_stash_protocol wHome
  exact ⟨h.1 (Except.ok ()) (Except.error conflictPat),
    h.2.1 (Except.ok ()) conflictPat,
    h.2.2.2 (Except.ok ()) (Except.ok ())⟩

theorem retryGo_transient_then_ok (fn : Nat → Except String α) (base : Nat) (a : α) :
    ∀ (K attempt remaining : Nat), K ≤ remaining →
    (∀ i, i < K → ∃ m, fn (attempt + i) = .error m ∧ isTransient m = true) →
    fn (attempt + K) = .ok a →
    retryGo fn base attempt remaining =
      ⟨.ok a, (List.range K).map (fun i => base * 2 ^ (attempt + i)), K + 1⟩ := by
  intro K
  induction K with
  | zero =>
    intro attempt remaining _ _ hok
    simp only [Nat.add_zero] at hok
    cases remaining <;> simp [retryGo, hok]
  | succ k ih =>
    intro attempt remaining hle hfail hok
    obtain ⟨r, rfl⟩ : ∃ r, remaining = r + 1 := by
      cases remaining with
      | zero => omega
      | succ r => exact ⟨r, rfl⟩
    obtain ⟨m, hm, hmt⟩ := hfail 0 (Nat.succ_pos k)
    simp only [Nat.add_zero] at hm
    have hrec := ih (attempt + 1) r (by omega)
      (fun i hi => by
        obtain ⟨m', hm', hmt'⟩ := hfail (i + 1) (by omega)
        exact ⟨m', by rw [show attempt + 1 + i = attempt + (i + 1) by omega]; exact hm', hmt'⟩)
      (by rw [show attempt + 1 + k = attempt + (k + 1) by omega]; exact hok)
    simp only [retryGo, hm, hmt, if_true, hrec]
    simp only [RetryTrace.mk.injEq, true_and, and_true]
    rw [List.range_succ_eq_map, List.map_cons, List.map_map]
    simp only [Nat.add_zero, List.cons.injEq, true_and, List.map_inj_left,
      Function.comp]
    intro i hi
    have harith : attempt + 1 + i = attempt + (i + 1) := by omega
    simp [harith]

theorem retryGo_transient_then_fatal (fn : Nat → Except String α) (base : Nat)
    (m : String) :
    ∀ (J attempt remaining : Nat), J ≤ remaining →
    (∀ i, i < J → ∃ mi, fn (attempt + i) = .error mi ∧ isTransient mi = true) →
    fn (attempt + J) = .error m → isTransient m = false →
    retryGo fn base attempt remaining =
      ⟨.error m, (List.range J).map (fun i => base * 2 ^ (attempt + i)), J + 1⟩ := by
  intro J
  induction J with
  | zero =>
    intro attempt remaining _ _ herr htr
    simp only [Nat.add_zero] at herr
    cases remaining with
    | zero => simp [retryGo, herr]
    | succ r => simp [retryGo, herr, htr]
  | succ j ih =>
    intro attempt remaining hle hfail herr htr
    obtain ⟨r, rfl⟩ : ∃ r, remaining = r + 1 := by
      cases remaining with
      | zero => omega
      | succ r => exact ⟨r, rfl⟩
    obtain ⟨m0, hm0, hmt0⟩ := hfail 0 (Nat.succ_pos j)
    simp only [Nat.add_zero] at hm0
    have hrec := ih (attempt + 1) r (by omega)
      (fun i hi => by
        obtain ⟨m', hm', hmt'⟩ := hfail (i + 1) (by omega)
        exact ⟨m', by rw [show attempt + 1 + i = attempt + (i + 1) by omega]; exact hm', hmt'⟩)
      (by rw [show attempt + 1 + j = attempt + (j + 1) by omega]; exact herr) htr
    simp only [retryGo, hm0, hmt0, if_true, hrec]
    simp only [RetryTrace.mk.injEq, true_and, and_true]
    rw [List.range_succ_eq_map, List.map_cons, List.map_map]
    simp only [Nat.add_zero, List.cons.injEq, true_and, List.map_inj_left,
      Function.comp]
    intro i hi
    have harith : attempt + 1 + i = attempt + (i + 1) := by omega
    simp [harith]

theorem chain'_le_range_map (f : Nat → Nat) (h : ∀ i, f i ≤ f (i + 1)) :
    ∀ K, ((List.range K).map f).Chain' (· ≤ ·) := by
  intro K
  rw [List.chain'_map]
  cases K with
  | zero => simp
  | succ n => exact (List.chain'_range_succ _ n).mpr (fun m _ => h m)

/-- C6: a Repository Gateway operation that fails with a transient-pattern
error on each of its first K attempts (K below the retry bound) and then
succeeds ultimately returns success, having slept between attempts with
delays doubling from the base interval, hence non-decreasing; a failure
whose message matches no transient pattern is propagated immediately, with
no further attempts and no further sleeps, wherever it occurs in the
sequence. -/
theorem retryWithBackoff_policy {α : Type} (fn : Nat → Except String α)
    (maxRetries base K : Nat) (a : α) :
    (K < maxRetries →
      (∀ i, i < K → ∃ m, fn i = .error m ∧ isTransient m = true) →
      fn K = .ok a →
      (retryWithBackoff fn maxRetries base).result = .ok a ∧
      (retryWithBackoff fn maxRetries base).delays =
        (List.range K).map (fun i => base * 2 ^ i) ∧
      (retryWithBackoff fn maxRetries base).delays.Chain' (· ≤ ·)) ∧
    (∀ (J : Nat) (m : String), J ≤ maxRetries →
      (∀ i, i < J → ∃ mi, fn i = .error mi ∧ isTransient mi = true) →
      fn J = .error m → isTransient m = false →
      (retryWithBackoff fn maxRetries base).result = .error m ∧
      (retryWithBackoff fn maxRetries base).attempts = J + 1 ∧
      (retryWithBackoff fn maxRetries base).delays =
        (List.range J).map (fun i => base * 2 ^ i)) := by
  constructor
  · intro hK hfail hok
    have h := retryGo_transient_then_ok fn base a K 0 maxRetries (by omega)
      (by simpa using hfail) (by simpa using hok)
    unfold retryWithBackoff
    rw [h]
    refine ⟨rfl, by simp, ?_⟩
    have hmono : ∀ i, base * 2 ^ i ≤ base * 2 ^ (i + 1) := by
      intro i
      exact Nat.mul_le_mul_left base (Nat.pow_le_pow_right (by omega) (by omega))
    simpa using chain'_le_range_map (fun i => base * 2 ^ i) hmono K
  · intro J m hJ hfail herr htr
    have h := retryGo_transient_then_fatal fn base m J 0 maxRetries hJ
      (by simpa using hfail) (by simpa using herr) htr
    unfold retryWithBackoff
    rw [h]
    exact ⟨rfl, rfl, by simp⟩

/-- Witness for C6: one transient failure then success yields success with a
single base-interval sleep, and a non-transient failure on the first attempt
propagates after one attempt with no sleeps. -/
theorem retryWithBackoff_policy_witness :
    ((retryWithBackoff wFn 3 1000).result = Except.ok 7 ∧
      (retryWithBackoff wFn 3 1000).delays = [1000]) ∧
    (retryWithBackoff wFnFatal 3 1000).result = Except.error wFatalErr ∧
    (retryWithBackoff wFnFatal 3 1000).attempts = 1 ∧
    (retryWithBackoff wFnFatal 3 1000).delays = [] := by
  have h1 := (retryWithBackoff_policy wFn 3 1000 1 7).1 (by omega)
    (fun i hi => ⟨wTransientErr, by
      have hi0 : i = 0 := by omega
      subst hi0
      exact ⟨rfl, by decide⟩⟩)
    (by rfl)
  have h2 := (retryWithBackoff_policy wFnFatal 3 1000 0 7).2 0 wFatalErr
    (by omega) (fun i hi => absurd hi (by omega)) rfl (by decide)
  exact ⟨⟨h1.1, by rw [h1.2.1]; rfl⟩, h2.1, h2.2.1, by rw [h2.2.2]; rfl⟩

theorem containsSub_self (s : String) : containsSub s s = true := by
  unfold containsSub
  cases hd : s.data with
  | nil => simp [hasSub]
  | cons x xs =>
    simp only [hasSub, Bool.or_eq_true]
    exact Or.inl (isPrefixOf_true_iff.mpr List.prefix_rfl)

theorem acquireGo_stale_first (host : String) (alive : Nat → Bool)
    (lockFile : String) (marker : Option LockData) (now : Int) (fuel : Nat)
    (h : isStale marker now host alive = true) :
    acquireGo host alive lockFile (fuel + 2) (some marker) now = .ok true := by
  simp only [acquireGo, h, if_true]

theorem isStale_some (d : LockData) (now : Int) (host : String)
    (alive : Nat → Bool) :
    isStale (some d) now host alive =
      if now - d.timestamp > LOCK_TIMEOUT_MS then true
      else if d.hostname == host then !(alive d.pid) else false := rfl

theorem acquireGo_nonstale_timeout (host : String) (alive : Nat → Bool)
    (lockFile : String) (d : LockData) :
    ∀ (fuel : Nat) (now : Int), d.hostname = host → alive d.pid = true →
      now - d.timestamp + LOCK_RETRY_INTERVAL_MS * (fuel : Int)
        ≤ LOCK_TIMEOUT_MS + LOCK_RETRY_INTERVAL_MS →
      acquireGo host alive lockFile fuel (some (some d)) now
        = .error (lockTimeoutMsg lockFile) := by
  intro fuel
  induction fuel with
  | zero => intro now _ _ _; rfl
  | succ f ih =>
    intro now hh ha hb
    have hb' : now - d.timestamp + 200 * ((f : Int) + 1) ≤ 60000 + 200 := by
      have := hb
      simp only [LOCK_TIMEOUT_MS, LOCK_RETRY_INTERVAL_MS] at this
      push_cast at this
      push_cast
      omega
    have hns : isStale (some d) now host alive = false := by
      have hle : ¬ (now - d.timestamp > LOCK_TIMEOUT_MS) := by
        simp only [LOCK_TIMEOUT_MS]
        omega
      rw [isStale_some, if_neg hle, if_pos (beq_iff_eq.mpr hh), ha]
      rfl
    have hstep : acquireGo host alive lockFile (f + 1) (some (some d)) now
        = acquireGo host alive lockFile f (some (some d))
            (now + LOCK_RETRY_INTERVAL_MS) := by
      simp [acquireGo, hns]
    rw [hstep]
    apply ih (now + LOCK_RETRY_INTERVAL_MS) hh ha
    simp only [LOCK_TIMEOUT_MS, LOCK_RETRY_INTERVAL_MS]
    push_cast
    omega

/-- C7: a lock marker is stale exactly when it cannot be read or parsed, its
age exceeds the staleness threshold, or it was written by the same host and
its recorded process id is no longer alive; a marker past the threshold, or
an unreadable one, is reclaimed so that acquire succeeds instead of timing
out; a marker that stays non-stale for the whole retry budget makes acquire
fail with an error whose message names the lock file location. -/
theorem acquire_staleness_policy (host : String) (alive : Nat → Bool)
    (lockFile : String) :
    (∀ (read : Option LockData) (now : Int),
      isStale read now host alive = true ↔
        read = none ∨ ∃ d, read = some d ∧
          (now - d.timestamp > LOCK_TIMEOUT_MS ∨
            (d.hostname = host ∧ alive d.pid = false))) ∧
    (∀ (d : LockData) (now : Int), now - d.timestamp > LOCK_TIMEOUT_MS →
      acquireModel host alive lockFile (some (some d)) now = .ok true) ∧
    (∀ now : Int, acquireModel host alive lockFile (some none) now = .ok true) ∧
    (∀ (d : LockData) (now : Int), d.hostname = host → alive d.pid = true →
      now - d.timestamp + LOCK_RETRY_INTERVAL_MS * ((LOCK_MAX_RETRIES : Nat) : Int)
        ≤ LOCK_TIMEOUT_MS + LOCK_RETRY_INTERVAL_MS →
      acquireModel host alive lockFile (some (some d)) now
        = .error (lockTimeoutMsg lockFile)) ∧
    containsSub (lockTimeoutMsg lockFile) lockFile = true := by
  refine ⟨?_, ?_, ?_, ?_, ?_⟩
  · intro read now
    cases read with
    | none => simp [isStale]
    | some d =>
      rw [isStale_some]
      constructor
      · intro h
        refine Or.inr ⟨d, rfl, ?_⟩
        by_cases h1 : now - d.timestamp > LOCK_TIMEOUT_MS
        · exact Or.inl h1
        · rw [if_neg h1] at h
          by_cases h2 : d.hostname = host
          · refine Or.inr ⟨h2, ?_⟩
            rw [if_pos (beq_iff_eq.mpr h2)] at h
            simpa using h
          · rw [if_neg (by simp [h2])] at h
            simp at h
      · intro h
        rcases h with h | ⟨e, he, hcond⟩
        · simp at h
        · cases Option.some.inj he
          rcases hcond with h1 | ⟨h2, h3⟩
          · rw [if_pos h1]
          · by_cases h1 : now - d.timestamp > LOCK_TIMEOUT_MS
            · rw [if_pos h1]
            · rw [if_neg h1, if_pos (beq_iff_eq.mpr h2), h3]
              rfl
  · intro d now h
    have hst : isStale (some d) now host alive = true := by
      rw [isStale_some, if_pos h]
    show acquireGo host alive lockFile LOCK_MAX_RETRIES (some (some d)) now = .ok true
    rw [show LOCK_MAX_RETRIES = 148 + 2 from rfl]
    exact acquireGo_stale_first host alive lockFile (some d) now 148 hst
  · intro now
    have hst : isStale none now host alive = true := rfl
    show acquireGo host alive lockFile LOCK_MAX_RETRIES (some none) now = .ok true
    rw [show LOCK_MAX_RETRIES = 148 + 2 from rfl]
    exact acquireGo_stale_first host alive lockFile none now 148 hst
  · intro d now hh ha hb
    exact acquireGo_nonstale_timeout host alive lockFile d LOCK_MAX_RETRIES now hh ha hb
  · unfold lockTimeoutMsg
    exact containsSub_append_left _ lockTimeoutMsgSuf _
      (containsSub_append_right lockTimeoutMsgPre lockFile _ (containsSub_self lockFile))

/-- Witness for C7: an unreadable marker is stale, a marker aged past the
threshold is reclaimed and acquire succeeds, and a live same-host marker
makes acquire time out with the lock file named in the error. -/
theorem acquire_staleness_policy_witness :
    isStale none 0 wHost wAlive = true ∧
    acquireModel wHost wAlive wLockFile (some (some wMarker)) 70000 = .ok true ∧
    acquireModel wHost wAlive wLockFile (some (some wMarker)) 1000
      = .error (lockTimeoutMsg wLockFile) ∧
    containsSub (lockTimeoutMsg wLockFile) wLockFile = true := by
  have h := acquire_staleness_policy wHost wAlive wLockFile
  refine ⟨(h.1 none 0).mpr (Or.inl rfl), h.2.1 wMarker 70000 (by decide),
    h.2.2.2.1 wMarker 1000 rfl rfl (by decide), h.2.2.2.2⟩

/-- C8: the classifier is a total function assigning exactly one of the seven
categories, with checks in precedence order: case-insensitive skill-manifest
name first, then the agents-segment-plus-markdown test, then the shared-rules
filename, then the private-rules filename, otherwise unrelated; the
global-versus-local decision is a path-prefix comparison under which a path
equal to the global root itself resolves to global. -/
theorem classifyChange_total_precedence (rules : SyncRules)
    (gsp gap filePath : String) :
    (toLowerStr (basename filePath) = skillManifestLower →
      classifyChange rules gsp gap filePath =
        (if pathStartsWith filePath gsp then .globalSkill else .localSkill)) ∧
    (toLowerStr (basename filePath) ≠ skillManifestLower →
      (endsWithStr (basename filePath) mdExt && containsSub filePath agentsSegment) = true →
      classifyChange rules gsp gap filePath =
        (if pathStartsWith filePath gap then .globalAgent else .localAgent)) ∧
    (toLowerStr (basename filePath) ≠ skillManifestLower →
      (endsWithStr (basename filePath) mdExt && containsSub filePath agentsSegment) = false →
      basename filePath = rules.globalFile →
      classifyChange rules gsp gap filePath = .sharedRule) ∧
    (toLowerStr (basename filePath) ≠ skillManifestLower →
      (endsWithStr (basename filePath) mdExt && containsSub filePath agentsSegment) = false →
      basename filePath ≠ rules.globalFile →
      basename filePath = rules.projectFile →
      classifyChange rules gsp gap filePath = .privateRule) ∧
    (toLowerStr (basename filePath) ≠ skillManifestLower →
      (endsWithStr (basename filePath) mdExt && containsSub filePath agentsSegment) = false →
      basename filePath ≠ rules.globalFile →
      basename filePath ≠ rules.projectFile →
      classifyChange rules gsp gap filePath = .unrelated) ∧
    (∀ p : String, pathStartsWith p p = true) := by
  refine ⟨?_, ?_, ?_, ?_, ?_, ?_⟩
  · intro h1
    have hb1 : (toLowerStr (basename filePath) == skillManifestLower) = true := by
      simp [h1]
    simp [classifyChange, hb1]
  · intro h1 h2
    have hb1 : (toLowerStr (basename filePath) == skillManifestLower) = false := by
      simp [h1]
    simp [classifyChange, hb1, h2]
  · intro h1 h2 h3
    have hb1 : (toLowerStr (basename filePath) == skillManifestLower) = false := by
      simp [h1]
    have hb3 : (basename filePath == rules.globalFile) = true := by simp [h3]
    simp [classifyChange, hb1, h2, hb3]
  · intro h1 h2 h3 h4
    have hb1 : (toLowerStr (basename filePath) == skillManifestLower) = false := by
      simp [h1]
    have hb3 : (basename filePath == rules.globalFile) = false := by simp [h3]
    have hb4 : (basename filePath == rules.projectFile) = true := by simp [h4]
    simp [classifyChange, hb1, h2, hb3, hb4]
  · intro h1 h2 h3 h4
    have hb1 : (toLowerStr (basename filePath) == skillManifestLower) = false := by
      simp [h1]
    have hb3 : (basename filePath == rules.globalFile) = false := by simp [h3]
    have hb4 : (basename filePath == rules.projectFile) = false := by simp [h4]
    simp [classifyChange, hb1, h2, hb3, hb4]
  · intro p
    exact isPrefixOf_true_iff.mpr List.prefix_rfl

/-- Witness for C8: concrete classifications in each precedence stratum and
the global root classifying as its own prefix. -/
theorem classifyChange_total_precedence_witness :
    classifyChange defaultSyncRules wGsp wGap wSkillPath = .globalSkill ∧
    classifyChange defaultSyncRules wGsp wGap wAgentPath = .localAgent ∧
    classifyChange defaultSyncRules wGsp wGap wProjectPath = .privateRule ∧
    classifyChange defaultSyncRules wGsp wGap wOtherPath = .unrelated ∧
    pathStartsWith wGsp wGsp = true := by
  refine ⟨?_, ?_, ?_, ?_, ?_⟩
  · have h := (classifyChange_total_precedence defaultSyncRules wGsp wGap wSkillPath).1
      (by decide)
    rw [h]
    rfl
  · have h := (classifyChange_total_precedence defaultSyncRules wGsp wGap wAgentPath).2.1
      (by decide) (by decide)
    rw [h]
    rfl
  · exact (classifyChange_total_precedence defaultSyncRules wGsp wGap wProjectPath).2.2.2.1
      (by decide) (by decide) (by decide) (by decide)
  · exact (classifyChange_total_precedence defaultSyncRules wGsp wGap wOtherPath).2.2.2.2.1
      (by decide) (by decide) (by decide) (by decide)
  · exact (classifyChange_total_precedence defaultSyncRules wGsp wGap wOtherPath).2.2.2.2.2 wGsp

theorem syncWorkspaceModel_frame (rules : SyncRules) (wp : String) (fs : Fs)
    (p : String) (hp : p ≠ joinPath wp rules.targetFile) :
    (syncWorkspaceModel rules wp fs).fs p = fs p := by
  simp only [syncWorkspaceModel]
  split
  · rfl
  · simp [fsWrite, hp]

theorem syncWorkspaceModel_reads (rules : SyncRules) (wp : String) (fs : Fs) :
    ∀ p ∈ (syncWorkspaceModel rules wp fs).reads,
      p = joinPath wp rules.globalFile ∨ p = joinPath wp rules.projectFile := by
  intro p hp
  simp only [syncWorkspaceModel] at hp
  split at hp
  · simp at hp
  · simp only [List.mem_append] at hp
    rcases hp with h | h
    · split at h
      · simp at h
        exact Or.inl h
      · simp at h
    · split at h
      · simp at h
        exact Or.inr h
      · simp at h

/-- C9: handling a private-rules file change only re-runs the merge and
rewrites that workspace merged-output file: the git operation trace is empty
(no commit, push, pull, or stash, so the repository clone is not mutated),
every path other than that workspace merged-output file keeps its content
(in particular the clone and every other workspace), and only the rules
files of that workspace are read. -/
theorem private_rule_change_local_only (rules : SyncRules) (home today : String)
    (workspaces : List Workspace) (gsp gap workspacePath filePath : String)
    (fs : Fs)
    (h1 : toLowerStr (basename filePath) ≠ skillManifestLower)
    (h2 : (endsWithStr (basename filePath) mdExt
      && containsSub filePath agentsSegment) = false)
    (h3 : basename filePath ≠ rules.globalFile)
    (h4 : basename filePath = rules.projectFile) :
    (handleChangeModel rules home today workspaces gsp gap workspacePath
        filePath fs).ops = [] ∧
    (∀ p, p ≠ joinPath workspacePath rules.targetFile →
      (handleChangeModel rules home today workspaces gsp gap workspacePath
        filePath fs).fs p = fs p) ∧
    (∀ p ∈ (handleChangeModel rules home today workspaces gsp gap workspacePath
        filePath fs).reads,
      p = joinPath workspacePath rules.globalFile ∨
        p = joinPath workspacePath rules.projectFile) := by
  have hb1 : (toLowerStr (basename filePath) == skillManifestLower) = false := by
    simp [h1]
  have hb3 : (basename filePath == rules.globalFile) = false := by simp [h3]
  have hb4 : (basename filePath == rules.projectFile) = true := by simp [h4]
  have hred : handleChangeModel rules home today workspaces gsp gap workspacePath
      filePath fs
      = ⟨(syncWorkspaceModel rules workspacePath fs).fs,
         (syncWorkspaceModel rules workspacePath fs).reads, []⟩ := by
    simp [handleChangeModel, hb1, h2, hb3, hb4]
  rw [hred]
  refine ⟨rfl, ?_, ?_⟩
  · intro p hp
    exact syncWorkspaceModel_frame rules workspacePath fs p hp
  · intro p hp
    exact syncWorkspaceModel_reads rules workspacePath fs p hp

/-- Witness for C9: a concrete private-rules change in W1 performs no git
operation, and leaves the W2 shared-rules file and the clone CLAUDE.md
untouched. -/
theorem private_rule_change_local_only_witness :
    (handleChangeModel defaultSyncRules wHome wToday
        [⟨wWs1, wWs1⟩, ⟨wWs2, wWs2⟩] wGsp wGap wWs1 wProjectPath wFsC9).ops = [] ∧
    (handleChangeModel defaultSyncRules wHome wToday
        [⟨wWs1, wWs1⟩, ⟨wWs2, wWs2⟩] wGsp wGap wWs1 wProjectPath wFsC9).fs
        (joinPath wWs2 defaultSyncRules.globalFile)
      = wFsC9 (joinPath wWs2 defaultSyncRules.globalFile) ∧
    (handleChangeModel defaultSyncRules wHome wToday
        [⟨wWs1, wWs1⟩, ⟨wWs2, wWs2⟩] wGsp wGap wWs1 wProjectPath wFsC9).fs
        (joinPath (repoDir wHome) claudeMdName)
      = wFsC9 (joinPath (repoDir wHome) claudeMdName) := by
  have h := private_rule_change_local_only defaultSyncRules wHome wToday
    [⟨wWs1, wWs1⟩, ⟨wWs2, wWs2⟩] wGsp wGap wWs1 wProjectPath wFsC9
    (by decide) (by decide) (by decide) (by decide)
  exact ⟨h.1, h.2.1 _ (by decide), h.2.1 _ (by decide)⟩

theorem takeWhile_append_stop {α : Type} (p : α → Bool) (l1 : List α) (x : α)
    (l2 : List α) (h1 : ∀ a ∈ l1, p a = true) (hx : p x = false) :
    (l1 ++ x :: l2).takeWhile p = l1 := by
  induction l1 with
  | nil => simp [List.takeWhile_cons, hx]
  | cons a t ih =>
    have ha : p a = true := h1 a (List.mem_cons_self a t)
    simp [List.takeWhile_cons, ha,
      ih (fun b hb => h1 b (List.mem_cons_of_mem a hb))]

theorem basename_joinPath (dir file : String) (h : slashChar ∉ file.data) :
    basename (joinPath dir file) = file := by
  unfold basename joinPath
  cases file with
  | mk fd =>
    simp only [String.data_append]
    have hs : slashString.data = [slashChar] := rfl
    rw [hs, List.reverse_append, List.reverse_append]
    simp only [List.reverse_cons, List.reverse_nil, List.nil_append,
      List.singleton_append]
    have h1 : ∀ a ∈ fd.reverse, (a != slashChar) = true := by
      intro a ha
      have : a ∈ fd := List.mem_reverse.mp ha
      have : a ≠ slashChar := by
        intro hq
        exact h (hq ▸ this)
      simpa using this
    rw [takeWhile_append_stop _ fd.reverse slashChar _ h1 (by simp)]
    simp

theorem syncFileModel_write_nonDelete (home filePath msg fileNameT : String)
    (fs : Fs) (hguard : basename filePath ≠ privateRulesName) :
    (syncFileModel home filePath msg (some fileNameT) false fs).fs
      = fsWrite fs (joinPath (repoDir home) fileNameT) (fsRead fs filePath) := by
  have hb : (basename filePath == privateRulesName) = false := by simp [hguard]
  simp only [syncFileModel, Option.getD_some, Bool.not_false, Bool.true_and, hb,
    Bool.false_eq_true, if_false, eq_self_iff_true, if_true]
  split <;> rfl

theorem syncAll_fold_frame (rules : SyncRules) :
    ∀ (ws : List Workspace) (fs : Fs) (p : String),
      (∀ w ∈ ws, p ≠ joinPath w.path rules.targetFile) →
      (ws.foldl (fun acc w => (syncWorkspaceModel rules w.path acc).fs) fs) p
        = fs p := by
  intro ws
  induction ws with
  | nil => intro fs p _; rfl
  | cons w rest ih =>
    intro fs p hp
    simp only [List.foldl_cons]
    rw [ih _ p (fun w' hw' => hp w' (List.mem_cons_of_mem w hw'))]
    exact syncWorkspaceModel_frame rules w.path fs p (hp w (List.mem_cons_self w rest))

/-- C10: in a manual sync-all over a non-empty workspace list, the
shared-rules content placed in the clone as CLAUDE.md and pushed comes
exclusively from the first registered workspace shared-rules file; when the
first workspace has no shared-rules file the push phase is skipped entirely
(no git operation, and only workspace merged-output files are written),
regardless of the shared-rules contents of the other workspaces. -/
theorem syncAll_first_workspace_push (rules : SyncRules) (home today : String)
    (w0 : Workspace) (rest : List Workspace) (fs : Fs)
    (hslash : slashChar ∉ rules.globalFile.data)
    (hpriv : rules.globalFile ≠ privateRulesName)
    (hframe : ∀ w ∈ w0 :: rest,
      joinPath w.path rules.targetFile ≠ joinPath w0.path rules.globalFile) :
    (∀ c, fs (joinPath w0.path rules.globalFile) = some c →
      (syncAllModel rules home today (w0 :: rest) fs).fs
        (joinPath (repoDir home) claudeMdName) = some c) ∧
    (fs (joinPath w0.path rules.globalFile) = none →
      (syncAllModel rules home today (w0 :: rest) fs).ops = [] ∧
      (∀ p, (∀ w ∈ w0 :: rest, p ≠ joinPath w.path rules.targetFile) →
        (syncAllModel rules home today (w0 :: rest) fs).fs p = fs p)) := by
  have hfs1 : ((w0 :: rest).foldl
      (fun acc w => (syncWorkspaceModel rules w.path acc).fs) fs)
      (joinPath w0.path rules.globalFile) = fs (joinPath w0.path rules.globalFile) :=
    syncAll_fold_frame rules (w0 :: rest) fs (joinPath w0.path rules.globalFile)
      (fun w hw => Ne.symm (hframe w hw))
  simp only [List.foldl_cons] at hfs1
  constructor
  · intro c hc
    have hgb : basename (joinPath w0.path rules.globalFile) ≠ privateRulesName := by
      rw [basename_joinPath w0.path rules.globalFile hslash]
      exact hpriv
    have hex : fsExists (rest.foldl
        (fun acc w => (syncWorkspaceModel rules w.path acc).fs)
        (syncWorkspaceModel rules w0.path fs).fs)
        (joinPath w0.path rules.globalFile) = true := by
      unfold fsExists
      rw [hfs1, hc]
      rfl
    simp only [syncAllModel, List.foldl_cons]
    rw [if_pos hex]
    dsimp only
    unfold syncGlobalToGitHubModel
    rw [if_neg (by simp [hex])]
    rw [syncFileModel_write_nonDelete home (joinPath w0.path rules.globalFile) _
      claudeMdName _ hgb]
    simp only [fsWrite, if_true]
    unfold fsRead
    rw [hfs1, hc]
    rfl
  · intro hc
    have hex : fsExists (rest.foldl
        (fun acc w => (syncWorkspaceModel rules w.path acc).fs)
        (syncWorkspaceModel rules w0.path fs).fs)
        (joinPath w0.path rules.globalFile) = false := by
      unfold fsExists
      rw [hfs1, hc]
      rfl
    simp only [syncAllModel, List.foldl_cons]
    rw [if_neg (by simp [hex])]
    refine ⟨rfl, fun p hp => ?_⟩
    have := syncAll_fold_frame rules (w0 :: rest) fs p hp
    simpa [List.foldl_cons] using this

/-- Witness for C10: with two workspaces the clone CLAUDE.md receives the
first workspace content, and with no first-workspace shared-rules file the
push is skipped with an empty operation trace. -/
theorem syncAll_first_workspace_push_witness :
    (syncAllModel defaultSyncRules wHome wToday
        [⟨wWs1, wWs1⟩, ⟨wWs2, wWs2⟩] wFsC10).fs
        (joinPath (repoDir wHome) claudeMdName) = some wSharedR ∧
    (syncAllModel defaultSyncRules wHome wToday
        [⟨wWs1, wWs1⟩, ⟨wWs2, wWs2⟩] wFsC10b).ops = [] := by
  have h1 := (syncAll_first_workspace_push defaultSyncRules wHome wToday
    ⟨wWs1, wWs1⟩ [⟨wWs2, wWs2⟩] wFsC10 (by decide) (by decide) (by decide)).1
    wSharedR (by rfl)
  have h2 := ((syncAll_first_workspace_push defaultSyncRules wHome wToday
    ⟨wWs1, wWs1⟩ [⟨wWs2, wWs2⟩] wFsC10b (by decide) (by decide) (by decide)).2
    (by rfl)).1
  exact ⟨h1, h2⟩

/-- C3 is violated by the code: on a clone that has CLAUDE.md, a skills
directory, and an agents directory, daemon start-up performs four repository
pulls, not exactly one — the daemon passes a skipPull option and its comment
says a single upfront pull is intended, but the propagate functions accept
no options and each pull again. -/
theorem startDaemon_performs_four_pulls :
    (startDaemonPulls ⟨true, true, true⟩).count GitOp.pullAttempt = 4 ∧
    (startDaemonPulls ⟨true, true, true⟩).count GitOp.pullAttempt ≠ 1 := by
  decide

theorem bulk_foldl_counts (items : List (String × SingleSync)) :
    ∀ acc : BulkResult,
      (items.foldl (fun acc it => bulkStep acc it.1 it.2) acc).synced
          = acc.synced + countPushedA items ∧
      (items.foldl (fun acc it => bulkStep acc it.1 it.2) acc).failed
          = acc.failed + countFailedA items ∧
      (items.foldl (fun acc it => bulkStep acc it.1 it.2) acc).details.length
          = acc.details.length + items.length := by
  induction items with
  | nil =>
    intro acc
    simp [countPushedA, countFailedA]
  | cons it rest ih =>
    intro acc
    obtain ⟨n, s⟩ := it
    have h := ih (bulkStep acc n s)
    simp only [List.foldl_cons]
    have e1 : (bulkStep acc n s).details.length = acc.details.length + 1 := by
      cases s <;> simp [bulkStep]
    have c1 : countPushedA ((n, s) :: rest)
        = countPushedA rest + (if isPushed s then 1 else 0) := by
      simp [countPushedA, List.countP_cons]
    have c2 : countFailedA ((n, s) :: rest)
        = countFailedA rest + (if isFailedSync s then 1 else 0) := by
      simp [countFailedA, List.countP_cons]
    refine ⟨?_, ?_, ?_⟩
    · rw [h.1, c1]
      cases s <;> simp [bulkStep, isPushed] <;> omega
    · rw [h.2.1, c2]
      cases s <;> simp [bulkStep, isFailedSync] <;> omega
    · rw [h.2.2, e1]
      simp
      omega

theorem skill_foldl_counts (items : List SkillItem) :
    ∀ acc : BulkResult,
      (items.foldl skillStep acc).synced = acc.synced + countPushedS items ∧
      (items.foldl skillStep acc).failed = acc.failed + countFailedS items ∧
      (items.foldl skillStep acc).details.length
          = acc.details.length + items.length := by
  induction items with
  | nil =>
    intro acc
    simp [countPushedS, countFailedS]
  | cons it rest ih =>
    intro acc
    have h := ih (skillStep acc it)
    simp only [List.foldl_cons]
    have e1 : (skillStep acc it).details.length = acc.details.length + 1 := by
      cases it with
      | noManifest dir => simp [skillStep]
      | manifest dir s => cases s <;> simp [skillStep, bulkStep]
    have c1 : countPushedS (it :: rest)
        = countPushedS rest + (if skillPushed it then 1 else 0) := by
      simp [countPushedS, List.countP_cons]
    have c2 : countFailedS (it :: rest)
        = countFailedS rest + (if skillFailed it then 1 else 0) := by
      simp [countFailedS, List.countP_cons]
    refine ⟨?_, ?_, ?_⟩
    · rw [h.1, c1]
      cases it with
      | noManifest dir => simp [skillStep, skillPushed]
      | manifest dir s =>
        cases s <;> simp [skillStep, bulkStep, skillPushed, isPushed] <;> omega
    · rw [h.2.1, c2]
      cases it with
      | noManifest dir => simp [skillStep, skillFailed]
      | manifest dir s =>
        cases s <;> simp [skillStep, bulkStep, skillFailed, isFailedSync] <;> omega
    · rw [h.2.2, e1]
      simp
      omega

theorem bulk_foldl_statuses (items : List (String × SingleSync)) :
    ∀ acc : BulkResult,
      (∀ dtl ∈ acc.details, dtl.status = syncedStatus ∨
        dtl.status = skippedStatus ∨ dtl.status = failedStatus) →
      ∀ dtl ∈ (items.foldl (fun acc it => bulkStep acc it.1 it.2) acc).details,
        dtl.status = syncedStatus ∨ dtl.status = skippedStatus ∨
          dtl.status = failedStatus := by
  induction items with
  | nil =>
    intro acc hacc
    simpa using hacc
  | cons it rest ih =>
    intro acc hacc
    obtain ⟨n, s⟩ := it
    simp only [List.foldl_cons]
    apply ih
    intro dtl hdtl
    cases s <;>
      simp only [bulkStep, List.mem_append, List.mem_singleton] at hdtl <;>
      rcases hdtl with h | h
    · exact hacc dtl h
    · subst h
      exact Or.inl rfl
    · exact hacc dtl h
    · subst h
      exact Or.inr (Or.inl rfl)
    · exact hacc dtl h
    · subst h
      exact Or.inr (Or.inr rfl)

theorem countsA_partition (items : List (String × SingleSync)) :
    countPushedA items + countSkippedA items + countFailedA items
      = items.length := by
  induction items with
  | nil => rfl
  | cons it rest ih =>
    obtain ⟨n, s⟩ := it
    cases s <;>
      simp [countPushedA, countSkippedA, countFailedA, List.countP_cons,
        isPushed, isSkippedSync, isFailedSync] at * <;>
      omega

theorem countsS_partition (items : List SkillItem) :
    countPushedS items + countSkippedS items + countFailedS items
      = items.length := by
  induction items with
  | nil => rfl
  | cons it rest ih =>
    cases it with
    | noManifest dir =>
      simp [countPushedS, countSkippedS, countFailedS, List.countP_cons,
        skillPushed, skillFailed, skillSkipped] at *
      omega
    | manifest dir s =>
      cases s <;>
        simp [countPushedS, countSkippedS, countFailedS, List.countP_cons,
          skillPushed, skillFailed, skillSkipped, isPushed, isSkippedSync,
          isFailedSync] at * <;>
        omega

/-- C4 fails as stated: a bulk agent sync over one item whose single-item
sync succeeded without pushing (an unchanged file reported as
"No changes to commit") has N = 1 items and M = 0 failures, yet the record
reports 0 synced, not N - M = 1; the item is recorded as skipped. -/
theorem bulkSync_counts_counterexample :
    (syncAllGlobalAgentsModel
      [(wAgentName, SingleSync.skippedMsg noChangesMsg)]).failed = 0 ∧
    (syncAllGlobalAgentsModel
      [(wAgentName, SingleSync.skippedMsg noChangesMsg)]).details.length = 1 ∧
    (syncAllGlobalAgentsModel
      [(wAgentName, SingleSync.skippedMsg noChangesMsg)]).synced ≠ 1 - 0 := by
  decide

/-- C4 (amended): every bulk sync over global agents or skills iterates all
items without aborting early: the details list carries exactly one outcome
per item with status synced, skipped, or failed and a message; synced counts
exactly the pushed items and failed exactly the items whose sync threw;
consequently, when no item is skipped, a run with M failures among N items
reports exactly N - M synced and M failed. -/
theorem bulkSync_outcome_counts (agents : List (String × SingleSync))
    (skills : List SkillItem) :
    (syncAllGlobalAgentsModel agents).details.length = agents.length ∧
    (syncAllGlobalAgentsModel agents).synced = countPushedA agents ∧
    (syncAllGlobalAgentsModel agents).failed = countFailedA agents ∧
    (∀ dtl ∈ (syncAllGlobalAgentsModel agents).details,
      dtl.status = syncedStatus ∨ dtl.status = skippedStatus ∨
        dtl.status = failedStatus) ∧
    (countSkippedA agents = 0 →
      (syncAllGlobalAgentsModel agents).synced
        = agents.length - countFailedA agents) ∧
    (syncAllGlobalSkillsModel skills).details.length = skills.length ∧
    (syncAllGlobalSkillsModel skills).synced = countPushedS skills ∧
    (syncAllGlobalSkillsModel skills).failed = countFailedS skills ∧
    (countSkippedS skills = 0 →
      (syncAllGlobalSkillsModel skills).synced
        = skills.length - countFailedS skills) := by
  have ha := bulk_foldl_counts agents initialBulk
  have hs := skill_foldl_counts skills initialBulk
  have hpa := countsA_partition agents
  have hps := countsS_partition skills
  refine ⟨?_, ?_, ?_, ?_, ?_, ?_, ?_, ?_, ?_⟩
  · simpa [syncAllGlobalAgentsModel, initialBulk] using ha.2.2
  · simpa [syncAllGlobalAgentsModel, initialBulk] using ha.1
  · simpa [syncAllGlobalAgentsModel, initialBulk] using ha.2.1
  · exact bulk_foldl_statuses agents initialBulk (by simp [initialBulk])
  · intro hz
    have h1 : (syncAllGlobalAgentsModel agents).synced = countPushedA agents := by
      simpa [syncAllGlobalAgentsModel, initialBulk] using ha.1
    rw [h1]
    omega
  · simpa [syncAllGlobalSkillsModel, initialBulk] using hs.2.2
  · simpa [syncAllGlobalSkillsModel, initialBulk] using hs.1
  · simpa [syncAllGlobalSkillsModel, initialBulk] using hs.2.1
  · intro hz
    have h1 : (syncAllGlobalSkillsModel skills).synced = countPushedS skills := by
      simpa [syncAllGlobalSkillsModel, initialBulk] using hs.1
    rw [h1]
    omega

/-- Witness for the amended C4: a concrete three-agent run with one failure
and no skips reports 2 synced and 1 failed over 3 items, and a concrete
skill run without skips reports its pushed count. -/
theorem bulkSync_outcome_counts_witness :
    (syncAllGlobalAgentsModel
      [(wAgentName, SingleSync.pushed), (wNameB, SingleSync.failedMsg wFatalErr),
        (wNameC, SingleSync.pushed)]).synced = 3 - 1 ∧
    (syncAllGlobalAgentsModel
      [(wAgentName, SingleSync.pushed), (wNameB, SingleSync.failedMsg wFatalErr),
        (wNameC, SingleSync.pushed)]).failed = 1 ∧
    (syncAllGlobalSkillsModel
      [SkillItem.manifest wSkillDir SingleSync.pushed]).synced = 1 - 0 := by
  have h := bulkSync_outcome_counts
    [(wAgentName, SingleSync.pushed), (wNameB, SingleSync.failedMsg wFatalErr),
      (wNameC, SingleSync.pushed)]
    [SkillItem.manifest wSkillDir SingleSync.pushed]
  refine ⟨?_, ?_, ?_⟩
  · have := h.2.2.2.2.1 (by decide)
    simpa using this
  · have := h.2.2.1
    simpa using this
  · have := h.2.2.2.2.2.2.2.2 (by decide)
    simpa using this

end ClaudeSync
